import Mathlib

/-!
Shallow embedding of the recommendation/ranking core of the DesignSenseAI
frontend.  The definitions below are translated from:

  * `frontend/src/pages/ModelAdvisor.tsx` (the budget shortlist selector,
    ranker, and feature aggregator inside the `useMemo` blocks);
  * `frontend/src/pages/SupplierInsights.tsx` (`createRecommendationCards`);
  * `frontend/src/pages/BuyerInsights.tsx` (`generateBuyerRecommendations`).

JavaScript numbers are modelled as rationals (`ℚ`); `null`/`undefined`
optional fields are modelled as `Option`.  Display-only string formatting
(`toFixed`, `toLocaleString`, number-to-string coercion) is modelled by the
total helpers below; no theorem depends on the rendered digits.
-/

namespace DesignSense

/-- Models `Array.prototype.sort(cmp)` for a JavaScript comparator returning a
number.  The ECMAScript specification requires the sort to be stable and
consistent with the comparator, which determines the output uniquely for a
consistent comparator; we realise it as a stable insertion sort.  An element
`y` already in the sorted suffix stays in front of the newly inserted (earlier
in the original list) element `x` exactly when the comparator orders `y`
strictly before `x`. -/
def insertBefore {α : Type} (cmp : α → α → ℚ) (x : α) : List α → List α
  | [] => [x]
  | y :: ys => if cmp y x < 0 then y :: insertBefore cmp x ys else x :: y :: ys

/-- Stable sort by a JavaScript-style comparator; see `insertBefore`. -/
def jsSort {α : Type} (cmp : α → α → ℚ) : List α → List α
  | [] => []
  | x :: xs => insertBefore cmp x (jsSort cmp xs)

theorem mem_insertBefore {α : Type} (cmp : α → α → ℚ) (x a : α) (l : List α) :
    a ∈ insertBefore cmp x l ↔ a = x ∨ a ∈ l := by
  induction l with
  | nil => simp [insertBefore]
  | cons y ys ih =>
      by_cases h : cmp y x < 0
      · simp only [insertBefore, if_pos h, List.mem_cons, ih]
        tauto
      · simp only [insertBefore, if_neg h, List.mem_cons]

theorem mem_jsSort {α : Type} (cmp : α → α → ℚ) (a : α) (l : List α) :
    a ∈ jsSort cmp l ↔ a ∈ l := by
  induction l with
  | nil => simp [jsSort]
  | cons x xs ih => simp [jsSort, mem_insertBefore, ih]

/-- The 1e-6 float-comparison tolerance used by the ranker. -/
def eps : ℚ := 1 / 1000000

/-- `Number.MAX_SAFE_INTEGER`, the stand-in price for unknown-price candidates
in the final tie-break key. -/
def MAX_SAFE_INTEGER : ℚ := 9007199254740991

/-- Display helper: left-pads a digit string with zeros to the given width. -/
def padZeros (s : String) (len : Nat) : String :=
  String.mk (List.replicate (len - s.length) '0') ++ s

/-- Models `x.toFixed(nd)` (and `Number(x.toFixed(nd))` rendering) on a
rational: scale, round half-up, and print with `nd` decimals.  Tie behaviour
of binary floats is a display-only nuance; no theorem depends on the digits. -/
def ratToFixed (nd : Nat) (q : ℚ) : String :=
  let scaled : Int := ⌊q * ((10 : ℚ) ^ nd) + 1 / 2⌋
  let sign := if scaled < 0 then "-" else ""
  let a := scaled.natAbs
  if nd = 0 then sign ++ toString a
  else sign ++ toString (a / 10 ^ nd) ++ "." ++ padZeros (toString (a % 10 ^ nd)) nd

/-- Models `n.toLocaleString()` for a non-negative integer in the `en-US`
locale: digits grouped in threes with commas. -/
def natToLocale (n : Nat) : String :=
  if h : n < 1000 then toString n
  else
    have : n / 1000 < n := Nat.div_lt_self (by omega) (by omega)
    natToLocale (n / 1000) ++ "," ++ padZeros (toString (n % 1000)) 3

/-- Models JavaScript number-to-string coercion inside template literals.
Integral values print without a decimal point; other values are shown with two
decimals.  Display-only; no theorem depends on the digits. -/
def qDisplay (q : ℚ) : String :=
  if q.den = 1 then toString q.num else ratToFixed 2 q

/-! ## Model Advisor (`frontend/src/pages/ModelAdvisor.tsx`)

The core shortlist selector, ranker and feature aggregator live in the
`useMemo` blocks of the `ModelAdvisor` component. -/

/-- `ModelAdvisorModel` from `types/analytics.ts`. -/
structure ModelAdvisorModel where
  brand : String
  model : String
  avg_rating : Option ℚ
  avg_price_usd : Option ℚ
  avg_price_inr : Option ℚ
  avg_battery_rating : Option ℚ
  avg_camera_rating : Option ℚ
  avg_display_rating : Option ℚ
  avg_performance_rating : Option ℚ
  review_count : Nat
deriving DecidableEq, Repr

/-- Eligibility filter (ModelAdvisor):
`scopedPool.filter(m => m.avg_price_usd !== null && m.avg_rating !== null)`. -/
def withPriceAndRating (scopedPool : List ModelAdvisorModel) : List ModelAdvisorModel :=
  scopedPool.filter (fun m => m.avg_price_usd.isSome && m.avg_rating.isSome)

/-- Budget-tolerance subset (ModelAdvisor):
`tolerance = Math.max(budget * 0.25, 100)` and the filter
`Math.abs((m.avg_price_usd ?? 0) - budget) <= tolerance`. -/
def withinToleranceOf (eligible : List ModelAdvisorModel) (b : ℚ) : List ModelAdvisorModel :=
  let tolerance := max (b * (25 / 100)) 100
  eligible.filter (fun m => decide (|m.avg_price_usd.getD 0 - b| ≤ tolerance))

/-- Working-set selection (ModelAdvisor): with a (truthy) budget, the
tolerance-filtered subset replaces the eligible pool only when it has at least
3 members; otherwise, and when no budget is given, the full eligible pool is
used.  The `b = 0` branch mirrors JavaScript truthiness of `budget`, though
the page never supplies a zero budget (`budgetValue` is `null` unless the
parsed input is strictly positive). -/
def workingSetOf (eligible : List ModelAdvisorModel) (budget : Option ℚ) :
    List ModelAdvisorModel :=
  match budget with
  | none => eligible
  | some b =>
      if b = 0 then eligible
      else if 3 ≤ (withinToleranceOf eligible b).length then withinToleranceOf eligible b
      else eligible

/-- The ranker comparator (ModelAdvisor `sort` callback).  Rating descending
with a 1e-6 tolerance; then, with a truthy budget, distance-to-budget
ascending with a 1e-6 tolerance (unknown price counts as exactly at budget);
finally `priceA - priceB` with unknown prices replaced by
`Number.MAX_SAFE_INTEGER` — this last key is returned directly, with no
tolerance. -/
def advCmp (budget : Option ℚ) (a b : ModelAdvisorModel) : ℚ :=
  let ratingDiff := b.avg_rating.getD 0 - a.avg_rating.getD 0
  if eps < |ratingDiff| then (if 0 < ratingDiff then 1 else -1)
  else
    let priceKey :=
      a.avg_price_usd.getD MAX_SAFE_INTEGER - b.avg_price_usd.getD MAX_SAFE_INTEGER
    match budget with
    | none => priceKey
    | some bd =>
        if bd = 0 then priceKey
        else
          let diffA := |a.avg_price_usd.getD bd - bd|
          let diffB := |b.avg_price_usd.getD bd - bd|
          if eps < |diffA - diffB| then diffA - diffB else priceKey

/-- The `recommendedModels` / `candidatePool` computation of `ModelAdvisor`
(the `useMemo` over `data`, `budgetValue`, `budgetBrand`): brand scoping,
eligibility filter with terminal empty return, working-set selection, ranking,
and top-3 extraction. -/
def modelAdvisorPools (models : List ModelAdvisorModel) (budgetBrand : String)
    (budgetValue : Option ℚ) : List ModelAdvisorModel × List ModelAdvisorModel :=
  if models.length = 0 then ([], [])
  else
    let scopedPool :=
      if budgetBrand ≠ "all" then models.filter (fun m => m.brand == budgetBrand) else models
    let eligible := withPriceAndRating scopedPool
    if eligible.length = 0 then ([], [])
    else
      let workingSet := workingSetOf eligible budgetValue
      let sorted := jsSort (advCmp budgetValue) workingSet
      (sorted.take 3, sorted)

/-- Half-up rounding to 2 decimal places, modelling
`Number(x.toFixed(2))` on the non-negative means produced by the feature
aggregator. -/
def round2 (q : ℚ) : ℚ := ((⌊q * 100 + 1 / 2⌋ : ℤ) : ℚ) / 100

/-- The fixed, ordered feature-metric list of `averageFeatureSeries`. -/
def advisorMetrics : List (String × (ModelAdvisorModel → Option ℚ)) :=
  [("Camera", fun m => m.avg_camera_rating),
   ("Battery", fun m => m.avg_battery_rating),
   ("Display", fun m => m.avg_display_rating),
   ("Performance", fun m => m.avg_performance_rating)]

/-- `averageFeatureSeries` (ModelAdvisor): for each metric, the mean of the
values present across the candidate pool rounded to 2 decimals (0 when no
value is present), keeping only entries with a strictly positive rating. -/
def averageFeatureSeries (candidatePool : List ModelAdvisorModel) : List (String × ℚ) :=
  (advisorMetrics.map (fun metric =>
    let values := candidatePool.filterMap metric.2
    let rating :=
      if values.length = 0 then 0
      else round2 ((values.foldl (· + ·) 0) / (values.length : ℚ))
    (metric.1, rating))).filter (fun entry => decide (0 < entry.2))

/-! ## Supplier narrative generator
(`frontend/src/pages/SupplierInsights.tsx`, `createRecommendationCards`)

The imperative card builder (a mutable `cards` array written through the
`pushCard` closure) is embedded as explicit state passing: each block of the
source function becomes a stage function from the card list so far to the
card list after the block. -/

/-- `RecommendationPriority` from `SupplierInsights.tsx`. -/
inductive RecommendationPriority where
  | Critical
  | High
  | Medium
deriving DecidableEq, Repr

/-- `RecommendationCardData` from `SupplierInsights.tsx`. -/
structure RecommendationCardData where
  title : String
  description : String
  priority : RecommendationPriority
deriving DecidableEq, Repr

/-- The supplier-side card cap. -/
def MAX_CARDS : Nat := 3

/-- The fixed ordered tier sequence `["Critical", "High", "Medium"]`. -/
def priorities : List RecommendationPriority :=
  [RecommendationPriority.Critical, RecommendationPriority.High, RecommendationPriority.Medium]

/-- The `pushCard` closure: assigns `priorities[cards.length] ?? "Medium"` and
appends only while the cap is not reached. -/
def pushCard (cards : List RecommendationCardData) (title description : String) :
    List RecommendationCardData :=
  let priority := priorities.getD cards.length RecommendationPriority.Medium
  if cards.length < MAX_CARDS then cards ++ [⟨title, description, priority⟩] else cards

/-- `SentimentCounts` from `types/analytics.ts`. -/
structure SentimentCounts where
  Positive : Nat
  Neutral : Nat
  Negative : Nat
deriving DecidableEq, Repr

/-- The `summary` of `SupplierBrandInsight`; `sentiments` and `health_score`
are not consulted by `createRecommendationCards` and are omitted. -/
structure SupplierBrandSummary where
  brand : String
  total_reviews : Nat
  avg_rating : Option ℚ
  positive_pct : ℚ
  negative_pct : ℚ
deriving DecidableEq, Repr

/-- `SupplierBrandInsight`, restricted to the fields `createRecommendationCards`
reads (its `complaint_volume` reaches the function through the separately
passed complaint list).  The `feature_sentiments` record is modelled as an
association list in insertion order, matching `Object.entries`; the source
reads it through `?? {}`, hence the `Option`. -/
structure SupplierBrandInsight where
  summary : SupplierBrandSummary
  feature_sentiments : Option (List (String × SentimentCounts))
deriving DecidableEq, Repr

/-- `ModelBreakdownEntry` fields consulted by the generator. -/
structure ModelBreakdownEntry where
  model : String
  total_reviews : Nat
  avg_rating : Option ℚ
  positive_pct : Option ℚ
  negative_pct : Option ℚ
deriving DecidableEq, Repr

/-- A complaint-volume entry `{ feature, complaints }`. -/
structure ComplaintEntry where
  feature : String
  complaints : Nat
deriving DecidableEq, Repr

/-- Source (a): the sentiment-pulse card, always attempted first in the
brand-insight branch.  `summary.avg_rating ? toFixed(1) : "N/A"` uses
JavaScript truthiness, so a zero rating also renders as `"N/A"`. -/
def stagePulse (scopeSuffix : String) (bi : SupplierBrandInsight)
    (cards : List RecommendationCardData) : List RecommendationCardData :=
  let summary := bi.summary
  let positive := ratToFixed 1 summary.positive_pct
  let negative := ratToFixed 1 summary.negative_pct
  let averageRating :=
    match summary.avg_rating with
    | some r => if r = 0 then "N/A" else ratToFixed 1 r
    | none => "N/A"
  pushCard cards (summary.brand ++ ": Sentiment pulse")
    (natToLocale summary.total_reviews ++ " reviews" ++ scopeSuffix ++ " show " ++ positive ++
      "% positive vs " ++ negative ++ "% negative sentiment with an average rating of " ++
      averageRating ++
      ". Launch a satisfaction uplift program focused on service quality and proactive outreach.")

/-- Source (b): the urgent-fix card for the top complaint, then stabilize
cards for `complaints.slice(1, MAX_CARDS - cards.length + 1)` — which takes
`MAX_CARDS - cards.length` elements of the tail, `cards.length` read after the
urgent-fix push — each guarded by the cap. -/
def stageComplaints (scopeSuffix brand : String) (complaints : List ComplaintEntry)
    (cards : List RecommendationCardData) : List RecommendationCardData :=
  match complaints with
  | [] => cards
  | primaryComplaint :: rest =>
      if cards.length < MAX_CARDS then
        let cards1 := pushCard cards (brand ++ ": Urgent fix for " ++ primaryComplaint.feature)
          (natToLocale primaryComplaint.complaints ++ " complaints cite " ++
            primaryComplaint.feature ++ scopeSuffix ++
            ". Allocate tiger teams across engineering, QA, and support to deliver a hotfix within 2 sprints.")
        (rest.take (MAX_CARDS - cards1.length)).foldl
          (fun cs item =>
            if cs.length < MAX_CARDS then
              pushCard cs (brand ++ ": Stabilize " ++ item.feature)
                ("Sustain a recovery plan for " ++ item.feature ++ scopeSuffix ++
                  " by improving diagnostics, releasing incremental firmware tweaks, and communicating timelines to affected customers.")
            else cs) cards1
      else cards

/-- A feature-sentiment entry enriched with its total and negative ratio. -/
structure FeatureNegEntry where
  feature : String
  counts : SentimentCounts
  total : Nat
  negativeRatio : ℚ
deriving DecidableEq, Repr

/-- The feature-sentiment ranking of source (c): entries of the record with a
positive total, sorted by negative ratio descending then raw negative count
descending (exact comparisons, no tolerance). -/
def featureSentimentsRanked (bi : SupplierBrandInsight) : List FeatureNegEntry :=
  jsSort
    (fun a b =>
      if b.negativeRatio ≠ a.negativeRatio then b.negativeRatio - a.negativeRatio
      else (b.counts.Negative : ℚ) - (a.counts.Negative : ℚ))
    (((bi.feature_sentiments.getD []).map (fun p =>
        let total := p.2.Positive + p.2.Neutral + p.2.Negative
        { feature := p.1, counts := p.2, total := total,
          negativeRatio := if total = 0 then 0 else (p.2.Negative : ℚ) / (total : ℚ) })).filter
      (fun e => decide (0 < e.total)))

/-- Source (c): redesign cards from the ranked feature sentiments, each push
guarded by the cap (the `forEach` body returns early once it is reached). -/
def stageFeatures (scopeSuffix brand : String) (bi : SupplierBrandInsight)
    (cards : List RecommendationCardData) : List RecommendationCardData :=
  if cards.length < MAX_CARDS then
    (featureSentimentsRanked bi).foldl
      (fun cs item =>
        if MAX_CARDS ≤ cs.length then cs
        else
          pushCard cs (brand ++ ": Redesign " ++ item.feature)
            (ratToFixed 1 (item.negativeRatio * 100) ++ "% of mentions for " ++ item.feature ++
              scopeSuffix ++
              " skew negative. Pair usability testing with supplier audits to reverse the sentiment trend."))
      cards
  else cards

/-- Source (d) ranking: `[...brandModels]` filtered to entries with a known
`negative_pct`, sorted by `(b.negative_pct ?? 0) - (a.negative_pct ?? 0)`
descending, first element. -/
def problematicModelOf (bm : List ModelBreakdownEntry) : Option ModelBreakdownEntry :=
  (jsSort (fun a b => b.negative_pct.getD 0 - a.negative_pct.getD 0)
    (bm.filter (fun m => m.negative_pct.isSome))).head?

/-- Source (d): the model-recovery card for the model with the highest known
negative percentage, only when that percentage is strictly positive. -/
def stageModels (scopeSuffix brand : String) (brandModels : Option (List ModelBreakdownEntry))
    (cards : List RecommendationCardData) : List RecommendationCardData :=
  match brandModels with
  | none => cards
  | some bm =>
      if cards.length < MAX_CARDS then
        match problematicModelOf bm with
        | some pm =>
            if 0 < pm.negative_pct.getD 0 then
              pushCard cards (brand ++ ": Model recovery for " ++ pm.model)
                ((match pm.negative_pct with
                  | some np => ratToFixed 1 np
                  | none => "--") ++ "% negative sentiment on " ++ pm.model ++ scopeSuffix ++
                  ". Launch an investigative task force, align firmware fixes, and supply field service guidance to partners.")
            else cards
        | none => cards
      else cards

/-- The `while (cards.length < MAX_CARDS) pushCard(...)` filler loop, source
(e).  Every iteration under the guard grows the list by one, so the loop runs
at most `MAX_CARDS` times; the fuel argument, instantiated with `MAX_CARDS`,
makes the recursion structural without changing the result. -/
def fillLoop (title description : String) : Nat → List RecommendationCardData →
    List RecommendationCardData
  | 0, cards => cards
  | fuel + 1, cards =>
      if cards.length < MAX_CARDS then
        fillLoop title description fuel (pushCard cards title description)
      else cards

/-- The brand-insight branch of `createRecommendationCards` (sources a-e). -/
def supplierBrandCards (scopeSuffix : String) (complaints : List ComplaintEntry)
    (bi : SupplierBrandInsight) (brandModels : Option (List ModelBreakdownEntry)) :
    List RecommendationCardData :=
  let brand := bi.summary.brand
  fillLoop (brand ++ ": Customer delight initiative")
    ("Augment post-purchase touchpoints" ++ scopeSuffix ++
      " with concierge support, extended warranty offers, and proactive communications to reinforce loyalty.")
    MAX_CARDS
    (stageModels scopeSuffix brand brandModels
      (stageFeatures scopeSuffix brand bi
        (stageComplaints scopeSuffix brand complaints
          (stagePulse scopeSuffix bi []))))

/-- The portfolio branch: top complaints become fix cards (up to the cap). -/
def stagePortfolioComplaints (scopeSuffix : String) (complaints : List ComplaintEntry)
    (cards : List RecommendationCardData) : List RecommendationCardData :=
  if complaints.length ≠ 0 then
    (complaints.take (MAX_CARDS - cards.length)).foldl
      (fun cs item =>
        pushCard cs ("Portfolio: Fix " ++ item.feature)
          (natToLocale item.complaints ++ " customers flagged " ++ item.feature ++ scopeSuffix ++
            ". Stand up a rapid response squad to triage root causes, ship fixes, and validate improvements with targeted surveys."))
      cards
  else cards

/-- The portfolio branch: free-text fallback strings wrapped into cards while
fewer than 3 cards exist, with position-dependent labels. -/
def stageFallbackTexts (scopeLabel : String) (fallback : List String)
    (cards : List RecommendationCardData) : List RecommendationCardData :=
  if cards.length < 3 ∧ fallback.length ≠ 0 then
    (fallback.take (3 - cards.length)).foldl
      (fun cs text =>
        let nextNumber := cs.length + 1
        let label :=
          if scopeLabel = "All companies" then "Recommendation " ++ toString nextNumber
          else scopeLabel ++ ": Initiative " ++ toString nextNumber
        pushCard cs label
          (if scopeLabel = "All companies" then text else text ++ " (" ++ scopeLabel ++ ")"))
      cards
  else cards

/-- The terminal generic card of the portfolio branch, pushed only when no
card was produced. -/
def stageMonitor (scopeSuffix : String) (cards : List RecommendationCardData) :
    List RecommendationCardData :=
  if cards.length = 0 then
    pushCard cards "Monitor customer signals"
      ("No urgent issues detected" ++ scopeSuffix ++
        ". Keep pulse on NPS, support tickets, and social channels to catch early sentiment shifts.")
  else cards

/-- `createRecommendationCards` from `SupplierInsights.tsx`. -/
def createRecommendationCards (scopeLabel : String) (complaints : List ComplaintEntry)
    (fallback : List String) (brandInsight : Option SupplierBrandInsight)
    (brandModels : Option (List ModelBreakdownEntry)) : List RecommendationCardData :=
  let scopeSuffix := if scopeLabel = "All companies" then "" else " for " ++ scopeLabel
  match brandInsight with
  | some bi => supplierBrandCards scopeSuffix complaints bi brandModels
  | none =>
      stageMonitor scopeSuffix
        (stageFallbackTexts scopeLabel fallback
          (stagePortfolioComplaints scopeSuffix complaints []))

/-! ## Buyer narrative generator
(`frontend/src/pages/BuyerInsights.tsx`, `generateBuyerRecommendations`)

Only the dataset fields consulted by the generator are modelled.  Reference
(in)equality `model !== bestModel` of the source is modelled structurally;
the analysis pool holds distinct (brand, model) aggregates. -/

/-- A `strongest_features` / `weakest_features` entry of `ModelAnalysisEntry`. -/
structure StrongFeature where
  feature : String
  positive_pct : ℚ
  mentions : Nat
deriving DecidableEq, Repr

/-- `ModelAnalysisEntry` from `types/analytics.ts`: `positive_pct`,
`negative_pct` and `overall_score` are non-nullable numbers there, while
`avg_rating` is `number | null`. -/
structure ModelAnalysisEntry where
  brand : String
  model : String
  total_reviews : Nat
  sentiments : SentimentCounts
  avg_rating : Option ℚ
  positive_pct : ℚ
  negative_pct : ℚ
  overall_score : ℚ
  strongest_features : List StrongFeature
  weakest_features : List StrongFeature
deriving DecidableEq, Repr

/-- `BrandAnalysisEntry` fields consulted by the generator
(`feature_sentiments` is never read there and is omitted). -/
structure BrandAnalysisEntry where
  brand : String
  total_reviews : Nat
  sentiments : SentimentCounts
  avg_rating : Option ℚ
  positive_pct : ℚ
  negative_pct : ℚ
  strength_score : ℚ
deriving DecidableEq, Repr

/-- `ModelLeaderboardEntry` fields consulted by the generator (only the
identifying key is ever read). -/
structure ModelLeaderboardEntry where
  brand : String
  model : String
  total_reviews : Nat
  avg_rating : Option ℚ
  positive_ratio : ℚ
  score : ℚ
deriving DecidableEq, Repr

/-- The `summary` of `BuyerBrandSegment` (consulted fields). -/
structure BuyerSegmentSummary where
  total_reviews : Nat
  positive_pct : ℚ
  neutral_pct : ℚ
  negative_pct : ℚ
  avg_rating : Option ℚ
deriving DecidableEq, Repr

/-- `BuyerBrandSegment` fields consulted by the generator. -/
structure BuyerBrandSegment where
  summary : BuyerSegmentSummary
  top_models : List ModelLeaderboardEntry
deriving DecidableEq, Repr

/-- `BuyerInsightsDataset` fields consulted by the generator; both pools are
optional in the interface and read through `?? []`. -/
structure BuyerInsightsDataset where
  brand_analysis : Option (List BrandAnalysisEntry)
  model_analysis : Option (List ModelAnalysisEntry)
deriving DecidableEq, Repr

/-- `BuyerRecommendation` from `BuyerInsights.tsx`. -/
structure BuyerRecommendation where
  title : String
  description : String
deriving DecidableEq, Repr

/-- The best-model sort key: `(b.positive_pct ?? 0) + (b.avg_rating ?? 0)`.
`positive_pct` is non-nullable in the interface, so its `?? 0` is inert; the
`?? 0` on `avg_rating` coerces an absent rating to 0 in the comparison. -/
def buyerScore (m : ModelAnalysisEntry) : ℚ := m.positive_pct + m.avg_rating.getD 0

/-- Source (a) selection: sort the scoped models by `buyerScore` descending
and take the head; when the pool is empty, try to match the first leaderboard
entry back into the (empty) pool by identity. -/
def buyerBestModel (scopedModels : List ModelAnalysisEntry)
    (brandSegment : Option BuyerBrandSegment) : Option ModelAnalysisEntry :=
  let best := (jsSort (fun a b => buyerScore b - buyerScore a) scopedModels).head?
  match best with
  | some _ => best
  | none =>
      match brandSegment with
      | some seg =>
          match seg.top_models.head? with
          | some candidate =>
              scopedModels.find? (fun m => m.brand == candidate.brand && m.model == candidate.model)
          | none => none
      | none => none


/-- Source (d) selection: the best-performing remaining model by
`positive_pct` descending (the best model excluded by identity), falling back
to the first leaderboard entry that differs from the best model, matched back
into the scoped pool by (brand, model); no match means no card. -/
def buyerOtherModel (scopedModels : List ModelAnalysisEntry)
    (bestModel : Option ModelAnalysisEntry) (brandSegment : Option BuyerBrandSegment) :
    Option ModelAnalysisEntry :=
  let other :=
    (jsSort (fun a b => b.positive_pct - a.positive_pct)
      (scopedModels.filter (fun m => decide (some m ≠ bestModel)))).head?
  match other with
  | some _ => other
  | none =>
      match brandSegment with
      | some seg =>
          match seg.top_models.find? (fun entry =>
            match bestModel with
            | none => true
            | some bm => !(entry.model == bm.model) || !(entry.brand == bm.brand)) with
          | some fallbackCandidate =>
              scopedModels.find? (fun m =>
                m.brand == fallbackCandidate.brand && m.model == fallbackCandidate.model)
          | none => none
      | none => none

/-- Sources (a) and (b): the top-pick card and, when the best model has a
ranked standout feature, the standout card. -/
def buyerTopPickCards (selectedBrand : String) (bestModel : Option ModelAnalysisEntry) :
    List BuyerRecommendation :=
  match bestModel with
  | none => []
  | some bm =>
      let positivePct := ratToFixed 1 bm.positive_pct
      let rating :=
        match bm.avg_rating with
        | some r => qDisplay r
        | none => "N/A"
      let lead := if selectedBrand = "all" then "across datasets" else "within the brand"
      let first : BuyerRecommendation :=
        ⟨bm.brand ++ " " ++ bm.model ++ " is your top pick",
          bm.model ++ " leads " ++ lead ++ " with " ++ positivePct ++
            "% positive sentiment and an average rating of " ++ rating ++
            ". Prioritize this model if you need a balanced flagship experience."⟩
      match bm.strongest_features.head? with
      | some standoutFeature =>
          [first,
            ⟨"What makes " ++ bm.model ++ " stand out",
              standoutFeature.feature ++ " earns " ++ qDisplay standoutFeature.positive_pct ++
                "% positive feedback (" ++ toString standoutFeature.mentions ++
                " mentions). Spotlight this feature when comparing against alternatives."⟩]
      | none => [first]

/-- Source (c): the market-benchmark card (scope "all") or the brand-health
card (single-brand scope, preferring the scoped segment summary and falling
back to the brand-analysis entry, skipped when either source is absent). -/
def buyerScopeCard (selectedBrand : String) (scopedBrands : List BrandAnalysisEntry)
    (brandSegment : Option BuyerBrandSegment) : List BuyerRecommendation :=
  if selectedBrand = "all" then
    match scopedBrands.head? with
    | some leadingBrand =>
        [⟨leadingBrand.brand ++ " leads the market",
          leadingBrand.brand ++ " secures " ++ qDisplay leadingBrand.positive_pct ++
            "% positive sentiment against " ++ qDisplay leadingBrand.negative_pct ++
            "% negative across " ++ natToLocale leadingBrand.total_reviews ++
            " reviews. Use this brand as a benchmark for reliability and customer satisfaction."⟩]
    | none => []
  else
    let analysisEntry := scopedBrands.head?
    let totalReviews :=
      (brandSegment.map (fun s => s.summary.total_reviews)).or
        (analysisEntry.map (fun e => e.total_reviews))
    let positivePct :=
      (brandSegment.map (fun s => s.summary.positive_pct)).or
        (analysisEntry.map (fun e => e.positive_pct))
    let negativePct :=
      (brandSegment.map (fun s => s.summary.negative_pct)).or
        (analysisEntry.map (fun e => e.negative_pct))
    match totalReviews, positivePct, negativePct with
    | some tr, some pp, some np =>
        [⟨selectedBrand ++ " brand health check",
          qDisplay pp ++ "% positive vs " ++ qDisplay np ++ "% negative sentiment across " ++
            natToLocale tr ++
            " reviews. Reinforce service touchpoints and marketing to keep sentiment trending upward."⟩]
    | _, _, _ => []

/-- Source (d): the secondary-option card. -/
def buyerSecondaryCard (otherModel : Option ModelAnalysisEntry) : List BuyerRecommendation :=
  match otherModel with
  | none => []
  | some om =>
      let joined := String.intercalate ", " ((om.strongest_features.map (fun f => f.feature)).take 2)
      let features := if joined = "" then "core usability" else joined
      let rating :=
        match om.avg_rating with
        | some r => qDisplay r
        | none => "N/A"
      [⟨"Secondary option: " ++ om.brand ++ " " ++ om.model,
        om.model ++ " posts " ++ qDisplay om.positive_pct ++ "% positive sentiment and " ++
          rating ++ " star ratings. Consider it if you value its highlighted features: " ++
          features ++ "."⟩]

/-- `generateBuyerRecommendations` from `BuyerInsights.tsx`: scope the pools,
collect the cards of sources (a)-(d) in order, add the generic
monitor-feedback card when nothing was produced, and truncate to 4. -/
def generateBuyerRecommendations (dataset : BuyerInsightsDataset) (selectedBrand : String)
    (brandSegment : Option BuyerBrandSegment) : List BuyerRecommendation :=
  let brandPool := dataset.brand_analysis.getD []
  let modelPool := dataset.model_analysis.getD []
  let scopedBrands :=
    if selectedBrand = "all" then brandPool
    else brandPool.filter (fun b => b.brand == selectedBrand)
  let scopedModels :=
    if selectedBrand = "all" then modelPool
    else modelPool.filter (fun m => m.brand == selectedBrand)
  let bestModel := buyerBestModel scopedModels brandSegment
  let otherModel := buyerOtherModel scopedModels bestModel brandSegment
  let recommendations :=
    buyerTopPickCards selectedBrand bestModel ++
      buyerScopeCard selectedBrand scopedBrands brandSegment ++
      buyerSecondaryCard otherModel
  let recommendations :=
    if recommendations.length = 0 then
      recommendations ++
        [⟨"Monitor customer feedback",
          "We need more recent reviews for this brand. Keep tracking sentiment to identify winning models as data grows."⟩]
    else recommendations
  recommendations.take 4

/-! ## Invariants of the supplier card builder -/

/-- The invariant of the `cards` array: it never exceeds the cap, and its
priorities are exactly the leading tiers of the fixed sequence, by position. -/
def CardsInv (cs : List RecommendationCardData) : Prop :=
  cs.length ≤ MAX_CARDS ∧
    cs.map (fun c => c.priority) = priorities.take cs.length

theorem cardsInv_nil : CardsInv [] := by
  constructor
  · simp [MAX_CARDS]
  · simp

theorem pushCard_inv {cs : List RecommendationCardData} (t d : String) (h : CardsInv cs) :
    CardsInv (pushCard cs t d) := by
  obtain ⟨hlen, hmap⟩ := h
  by_cases hlt : cs.length < MAX_CARDS
  · have h3 : cs.length = 0 ∨ cs.length = 1 ∨ cs.length = 2 := by
      simp only [MAX_CARDS] at hlt
      omega
    constructor
    · simp only [pushCard, if_pos hlt, List.length_append, List.length_cons, List.length_nil]
      simp only [MAX_CARDS] at hlt ⊢
      omega
    · simp only [pushCard, if_pos hlt, List.map_append, hmap, List.map_cons, List.map_nil,
        List.length_append, List.length_cons, List.length_nil]
      rcases h3 with h0 | h0 | h0 <;> rw [h0] <;> rfl
  · simpa [pushCard, if_neg hlt] using ⟨hlen, hmap⟩

theorem pushCard_length_of_lt {cs : List RecommendationCardData} (t d : String)
    (h : cs.length < MAX_CARDS) : (pushCard cs t d).length = cs.length + 1 := by
  simp [pushCard, if_pos h]

theorem foldl_inv {β : Type} (f : List RecommendationCardData → β → List RecommendationCardData)
    (hf : ∀ cs x, CardsInv cs → CardsInv (f cs x)) :
    ∀ (l : List β) (cs : List RecommendationCardData), CardsInv cs → CardsInv (l.foldl f cs) := by
  intro l
  induction l with
  | nil => intro cs h; simpa using h
  | cons x xs ih =>
      intro cs h
      simpa [List.foldl_cons] using ih (f cs x) (hf cs x h)

theorem fillLoop_inv (t d : String) :
    ∀ (fuel : Nat) (cs : List RecommendationCardData), CardsInv cs →
      CardsInv (fillLoop t d fuel cs) := by
  intro fuel
  induction fuel with
  | zero => intro cs h; simpa [fillLoop] using h
  | succ n ih =>
      intro cs h
      by_cases hlt : cs.length < MAX_CARDS
      · simpa [fillLoop, if_pos hlt] using ih (pushCard cs t d) (pushCard_inv t d h)
      · simpa [fillLoop, if_neg hlt] using h

theorem fillLoop_length (t d : String) :
    ∀ (fuel : Nat) (cs : List RecommendationCardData), cs.length ≤ MAX_CARDS →
      MAX_CARDS ≤ cs.length + fuel → (fillLoop t d fuel cs).length = MAX_CARDS := by
  intro fuel
  induction fuel with
  | zero =>
      intro cs h1 h2
      simp only [fillLoop]
      omega
  | succ n ih =>
      intro cs h1 h2
      by_cases hlt : cs.length < MAX_CARDS
      · have hpush := pushCard_length_of_lt t d hlt
        have := ih (pushCard cs t d) (by omega) (by omega)
        simpa [fillLoop, if_pos hlt] using this
      · simp only [fillLoop, if_neg hlt]
        omega

theorem append_extends_trans {cs ds es : List RecommendationCardData}
    (h1 : ∃ u, ds = cs ++ u) (h2 : ∃ u, es = ds ++ u) : ∃ u, es = cs ++ u := by
  obtain ⟨u1, h1⟩ := h1
  obtain ⟨u2, h2⟩ := h2
  exact ⟨u1 ++ u2, by rw [h2, h1, List.append_assoc]⟩

theorem pushCard_extends (cs : List RecommendationCardData) (t d : String) :
    ∃ u, pushCard cs t d = cs ++ u := by
  by_cases h : cs.length < MAX_CARDS
  · exact ⟨[⟨t, d, priorities.getD cs.length RecommendationPriority.Medium⟩],
      by simp [pushCard, if_pos h]⟩
  · exact ⟨[], by simp [pushCard, if_neg h]⟩

theorem foldl_extends {β : Type}
    (f : List RecommendationCardData → β → List RecommendationCardData)
    (hf : ∀ cs x, ∃ u, f cs x = cs ++ u) :
    ∀ (l : List β) (cs : List RecommendationCardData), ∃ u, l.foldl f cs = cs ++ u := by
  intro l
  induction l with
  | nil => intro cs; exact ⟨[], by simp⟩
  | cons x xs ih =>
      intro cs
      exact append_extends_trans (hf cs x) (by simpa [List.foldl_cons] using ih (f cs x))

theorem fillLoop_extends (t d : String) :
    ∀ (fuel : Nat) (cs : List RecommendationCardData), ∃ u, fillLoop t d fuel cs = cs ++ u := by
  intro fuel
  induction fuel with
  | zero => intro cs; exact ⟨[], by simp [fillLoop]⟩
  | succ n ih =>
      intro cs
      by_cases hlt : cs.length < MAX_CARDS
      · refine append_extends_trans (pushCard_extends cs t d) ?_
        simpa [fillLoop, if_pos hlt] using ih (pushCard cs t d)
      · exact ⟨[], by simp [fillLoop, if_neg hlt]⟩

theorem stagePulse_inv (s : String) (bi : SupplierBrandInsight)
    {cs : List RecommendationCardData} (h : CardsInv cs) : CardsInv (stagePulse s bi cs) :=
  pushCard_inv _ _ h

theorem stageComplaints_inv (s b : String) (complaints : List ComplaintEntry)
    {cs : List RecommendationCardData} (h : CardsInv cs) :
    CardsInv (stageComplaints s b complaints cs) := by
  cases complaints with
  | nil => simpa [stageComplaints] using h
  | cons p rest =>
      by_cases hlt : cs.length < MAX_CARDS
      · simp only [stageComplaints, if_pos hlt]
        refine foldl_inv _ ?_ _ _ (pushCard_inv _ _ h)
        intro cs' x h'
        by_cases hlt' : cs'.length < MAX_CARDS
        · simpa [if_pos hlt'] using pushCard_inv _ _ h'
        · simpa [if_neg hlt'] using h'
      · simpa [stageComplaints, if_neg hlt] using h

theorem stageFeatures_inv (s b : String) (bi : SupplierBrandInsight)
    {cs : List RecommendationCardData} (h : CardsInv cs) :
    CardsInv (stageFeatures s b bi cs) := by
  by_cases hlt : cs.length < MAX_CARDS
  · simp only [stageFeatures, if_pos hlt]
    refine foldl_inv _ ?_ _ _ h
    intro cs' x h'
    by_cases hge : MAX_CARDS ≤ cs'.length
    · simpa [if_pos hge] using h'
    · simpa [if_neg hge] using pushCard_inv _ _ h'
  · simpa [stageFeatures, if_neg hlt] using h

theorem stageModels_inv (s b : String) (brandModels : Option (List ModelBreakdownEntry))
    {cs : List RecommendationCardData} (h : CardsInv cs) :
    CardsInv (stageModels s b brandModels cs) := by
  cases brandModels with
  | none => simpa [stageModels] using h
  | some bm =>
      by_cases hlt : cs.length < MAX_CARDS
      · simp only [stageModels, if_pos hlt]
        cases hpm : problematicModelOf bm with
        | none => simpa using h
        | some pm =>
            by_cases hpos : 0 < pm.negative_pct.getD 0
            · simpa [if_pos hpos] using pushCard_inv _ _ h
            · simpa [if_neg hpos] using h
      · simpa [stageModels, if_neg hlt] using h

theorem stagePortfolioComplaints_inv (s : String) (complaints : List ComplaintEntry)
    {cs : List RecommendationCardData} (h : CardsInv cs) :
    CardsInv (stagePortfolioComplaints s complaints cs) := by
  simp only [stagePortfolioComplaints]
  split
  · exact foldl_inv _ (fun cs' x h' => pushCard_inv _ _ h') _ _ h
  · exact h

theorem stageFallbackTexts_inv (scopeLabel : String) (fallback : List String)
    {cs : List RecommendationCardData} (h : CardsInv cs) :
    CardsInv (stageFallbackTexts scopeLabel fallback cs) := by
  simp only [stageFallbackTexts]
  split
  · exact foldl_inv _ (fun cs' x h' => pushCard_inv _ _ h') _ _ h
  · exact h

theorem stageMonitor_inv (s : String) {cs : List RecommendationCardData} (h : CardsInv cs) :
    CardsInv (stageMonitor s cs) := by
  simp only [stageMonitor]
  split
  · exact pushCard_inv _ _ h
  · exact h

theorem stageMonitor_length_pos (s : String) (cs : List RecommendationCardData) :
    1 ≤ (stageMonitor s cs).length := by
  simp only [stageMonitor]
  split
  · next h0 =>
      have hnil : cs = [] := List.length_eq_zero.mp h0
      subst hnil
      simp [pushCard, MAX_CARDS]
  · next h0 => omega

theorem foldl_extends_from {β : Type}
    (f : List RecommendationCardData → β → List RecommendationCardData)
    (hf : ∀ cs x, ∃ u, f cs x = cs ++ u) (l : List β)
    {cs init : List RecommendationCardData} (h : ∃ u, init = cs ++ u) :
    ∃ u, l.foldl f init = cs ++ u :=
  append_extends_trans h (foldl_extends f hf l init)

theorem stageComplaints_extends (s b : String) (complaints : List ComplaintEntry)
    (cs : List RecommendationCardData) : ∃ u, stageComplaints s b complaints cs = cs ++ u := by
  simp only [stageComplaints]
  split
  · exact ⟨[], by simp⟩
  · split
    · refine foldl_extends_from _ ?_ _ (pushCard_extends cs _ _)
      intro cs' x
      split
      · exact pushCard_extends cs' _ _
      · exact ⟨[], by simp⟩
    · exact ⟨[], by simp⟩

theorem stageFeatures_extends (s b : String) (bi : SupplierBrandInsight)
    (cs : List RecommendationCardData) : ∃ u, stageFeatures s b bi cs = cs ++ u := by
  simp only [stageFeatures]
  split
  · refine foldl_extends_from _ ?_ _ ⟨[], by simp⟩
    intro cs' x
    split
    · exact ⟨[], by simp⟩
    · exact pushCard_extends cs' _ _
  · exact ⟨[], by simp⟩

theorem stageModels_extends (s b : String) (brandModels : Option (List ModelBreakdownEntry))
    (cs : List RecommendationCardData) : ∃ u, stageModels s b brandModels cs = cs ++ u := by
  simp only [stageModels]
  split
  · exact ⟨[], by simp⟩
  · split
    · split
      · split
        · exact pushCard_extends cs _ _
        · exact ⟨[], by simp⟩
      · exact ⟨[], by simp⟩
    · exact ⟨[], by simp⟩

/-- The chained card list of the brand-insight branch before the filler loop. -/
def preFillCards (scopeSuffix : String) (complaints : List ComplaintEntry)
    (bi : SupplierBrandInsight) (brandModels : Option (List ModelBreakdownEntry)) :
    List RecommendationCardData :=
  stageModels scopeSuffix bi.summary.brand brandModels
    (stageFeatures scopeSuffix bi.summary.brand bi
      (stageComplaints scopeSuffix bi.summary.brand complaints
        (stagePulse scopeSuffix bi [])))

theorem preFillCards_inv (s : String) (complaints : List ComplaintEntry)
    (bi : SupplierBrandInsight) (bm : Option (List ModelBreakdownEntry)) :
    CardsInv (preFillCards s complaints bi bm) :=
  stageModels_inv _ _ _
    (stageFeatures_inv _ _ _
      (stageComplaints_inv _ _ _ (stagePulse_inv _ _ cardsInv_nil)))

theorem supplierBrandCards_eq_fill (s : String) (complaints : List ComplaintEntry)
    (bi : SupplierBrandInsight) (bm : Option (List ModelBreakdownEntry)) :
    supplierBrandCards s complaints bi bm =
      fillLoop (bi.summary.brand ++ ": Customer delight initiative")
        ("Augment post-purchase touchpoints" ++ s ++
          " with concierge support, extended warranty offers, and proactive communications to reinforce loyalty.")
        MAX_CARDS (preFillCards s complaints bi bm) := rfl

theorem supplierBrandCards_inv (s : String) (complaints : List ComplaintEntry)
    (bi : SupplierBrandInsight) (bm : Option (List ModelBreakdownEntry)) :
    CardsInv (supplierBrandCards s complaints bi bm) := by
  rw [supplierBrandCards_eq_fill]
  exact fillLoop_inv _ _ _ _ (preFillCards_inv s complaints bi bm)

theorem supplierBrandCards_length (s : String) (complaints : List ComplaintEntry)
    (bi : SupplierBrandInsight) (bm : Option (List ModelBreakdownEntry)) :
    (supplierBrandCards s complaints bi bm).length = MAX_CARDS := by
  rw [supplierBrandCards_eq_fill]
  exact fillLoop_length _ _ _ _ (preFillCards_inv s complaints bi bm).1 (by omega)

theorem stagePulse_nil (s : String) (bi : SupplierBrandInsight) :
    ∃ d, stagePulse s bi [] =
      [⟨bi.summary.brand ++ ": Sentiment pulse", d, RecommendationPriority.Critical⟩] :=
  ⟨_, rfl⟩

theorem supplierBrandCards_head (s : String) (complaints : List ComplaintEntry)
    (bi : SupplierBrandInsight) (bm : Option (List ModelBreakdownEntry)) :
    ((supplierBrandCards s complaints bi bm).head?).map (fun c => c.title) =
      some (bi.summary.brand ++ ": Sentiment pulse") := by
  obtain ⟨d, hd⟩ := stagePulse_nil s bi
  have e1 := stageComplaints_extends s bi.summary.brand complaints (stagePulse s bi [])
  have e2 := stageFeatures_extends s bi.summary.brand bi
    (stageComplaints s bi.summary.brand complaints (stagePulse s bi []))
  have e3 := stageModels_extends s bi.summary.brand bm
    (stageFeatures s bi.summary.brand bi
      (stageComplaints s bi.summary.brand complaints (stagePulse s bi [])))
  have e4 := fillLoop_extends (bi.summary.brand ++ ": Customer delight initiative")
    ("Augment post-purchase touchpoints" ++ s ++
      " with concierge support, extended warranty offers, and proactive communications to reinforce loyalty.")
    MAX_CARDS (preFillCards s complaints bi bm)
  obtain ⟨u, hu⟩ :=
    append_extends_trans (append_extends_trans (append_extends_trans e1 e2) e3) e4
  rw [supplierBrandCards_eq_fill]
  rw [show preFillCards s complaints bi bm =
      stageModels s bi.summary.brand bm
        (stageFeatures s bi.summary.brand bi
          (stageComplaints s bi.summary.brand complaints (stagePulse s bi []))) from rfl] at hu ⊢
  rw [hu, hd]
  simp

theorem createCards_some (scopeLabel : String) (complaints : List ComplaintEntry)
    (fallback : List String) (bi : SupplierBrandInsight)
    (bm : Option (List ModelBreakdownEntry)) :
    createRecommendationCards scopeLabel complaints fallback (some bi) bm =
      supplierBrandCards (if scopeLabel = "All companies" then "" else " for " ++ scopeLabel)
        complaints bi bm := rfl

theorem createCards_none (scopeLabel : String) (complaints : List ComplaintEntry)
    (fallback : List String) (bm : Option (List ModelBreakdownEntry)) :
    createRecommendationCards scopeLabel complaints fallback none bm =
      stageMonitor (if scopeLabel = "All companies" then "" else " for " ++ scopeLabel)
        (stageFallbackTexts scopeLabel fallback
          (stagePortfolioComplaints
            (if scopeLabel = "All companies" then "" else " for " ++ scopeLabel) complaints [])) :=
  rfl

theorem cardsInv_createCards (scopeLabel : String) (complaints : List ComplaintEntry)
    (fallback : List String) (brandInsight : Option SupplierBrandInsight)
    (bm : Option (List ModelBreakdownEntry)) :
    CardsInv (createRecommendationCards scopeLabel complaints fallback brandInsight bm) := by
  cases brandInsight with
  | some bi =>
      rw [createCards_some]
      exact supplierBrandCards_inv _ _ _ _
  | none =>
      rw [createCards_none]
      exact stageMonitor_inv _ (stageFallbackTexts_inv _ _ (stagePortfolioComplaints_inv _ _ cardsInv_nil))


/-! ## Claim theorems -/

/-- C1: for every input context, both narrative generators return a non-empty
list of at most `MAX_CARDS` cards (3 for the supplier-style generator, 4 for
the buyer-style generator); every code path produces at least one generic
fallback card when no other source yields a card. -/
theorem narrative_generators_nonempty_and_capped :
    (∀ (scopeLabel : String) (complaints : List ComplaintEntry) (fallback : List String)
        (brandInsight : Option SupplierBrandInsight)
        (brandModels : Option (List ModelBreakdownEntry)),
        1 ≤ (createRecommendationCards scopeLabel complaints fallback brandInsight
              brandModels).length ∧
          (createRecommendationCards scopeLabel complaints fallback brandInsight
              brandModels).length ≤ 3) ∧
    (∀ (dataset : BuyerInsightsDataset) (selectedBrand : String)
        (brandSegment : Option BuyerBrandSegment),
        1 ≤ (generateBuyerRecommendations dataset selectedBrand brandSegment).length ∧
          (generateBuyerRecommendations dataset selectedBrand brandSegment).length ≤ 4) := by
  constructor
  · intro scopeLabel complaints fallback brandInsight brandModels
    cases brandInsight with
    | some bi =>
        constructor
        · rw [createCards_some, supplierBrandCards_length]
          decide
        · have h := (supplierBrandCards_inv
            (if scopeLabel = "All companies" then "" else " for " ++ scopeLabel)
            complaints bi brandModels).1
          rw [createCards_some]
          exact h
    | none =>
        constructor
        · rw [createCards_none]
          exact stageMonitor_length_pos _ _
        · rw [createCards_none]
          exact (stageMonitor_inv _
            (stageFallbackTexts_inv _ _ (stagePortfolioComplaints_inv _ _ cardsInv_nil))).1
  · intro dataset selectedBrand brandSegment
    have key : ∀ (r : List BuyerRecommendation) (mon : BuyerRecommendation),
        1 ≤ ((if r.length = 0 then r ++ [mon] else r).take 4).length ∧
          ((if r.length = 0 then r ++ [mon] else r).take 4).length ≤ 4 := by
      intro r mon
      by_cases h : r.length = 0
      · rw [if_pos h]
        simp only [List.length_take, List.length_append, List.length_singleton]
        omega
      · rw [if_neg h]
        simp only [List.length_take]
        omega
    exact key _ _

/-- C9: the priority of a supplier card is determined solely by its position
through the fixed tier sequence Critical, High, Medium: the priorities of the
output are exactly the leading tiers of `priorities`, by position, whatever
source produced each card. -/
theorem supplier_card_priorities_by_position :
    ∀ (scopeLabel : String) (complaints : List ComplaintEntry) (fallback : List String)
      (brandInsight : Option SupplierBrandInsight)
      (brandModels : Option (List ModelBreakdownEntry)),
      (createRecommendationCards scopeLabel complaints fallback brandInsight brandModels).map
          (fun c => c.priority) =
        priorities.take
          (createRecommendationCards scopeLabel complaints fallback brandInsight
            brandModels).length := by
  intro scopeLabel complaints fallback brandInsight brandModels
  exact (cardsInv_createCards scopeLabel complaints fallback brandInsight brandModels).2

/-- C10: with brand-level detail available (`brandInsight` non-null) the
supplier generator returns exactly 3 cards, the sentiment-pulse card always
coming first; when the complaint, feature-sentiment and model sources yield
nothing, the remaining slots are filled with the repeated generic customer
delight initiative card. -/
theorem supplier_brand_detail_exactly_three_cards :
    ∀ (scopeLabel : String) (complaints : List ComplaintEntry) (fallback : List String)
      (bi : SupplierBrandInsight) (brandModels : Option (List ModelBreakdownEntry)),
      (createRecommendationCards scopeLabel complaints fallback (some bi) brandModels).length
          = 3 ∧
      ((createRecommendationCards scopeLabel complaints fallback (some bi)
            brandModels).head?).map (fun c => c.title) =
        some (bi.summary.brand ++ ": Sentiment pulse") ∧
      (complaints = [] → bi.feature_sentiments = none → brandModels = none →
        (createRecommendationCards scopeLabel complaints fallback (some bi) brandModels).map
            (fun c => c.title) =
          [bi.summary.brand ++ ": Sentiment pulse",
            bi.summary.brand ++ ": Customer delight initiative",
            bi.summary.brand ++ ": Customer delight initiative"]) := by
  intro scopeLabel complaints fallback bi brandModels
  refine ⟨?_, ?_, ?_⟩
  · rw [createCards_some]
    exact supplierBrandCards_length _ _ _ _
  · rw [createCards_some]
    exact supplierBrandCards_head _ _ _ _
  · intro hc hfs hbm
    obtain ⟨bsum, bfs⟩ := bi
    simp only at hfs
    subst hc hfs hbm
    rfl

/-- C10 witness: a concrete brand insight with no complaint, feature-sentiment
or model source, instantiating `supplier_brand_detail_exactly_three_cards`. -/
theorem supplier_brand_detail_exactly_three_cards_witness :
    (createRecommendationCards "All companies" [] []
        (some ⟨⟨"Acme", 120, some 4, 80, 10⟩, none⟩) none).length = 3 ∧
    ((createRecommendationCards "All companies" [] []
          (some ⟨⟨"Acme", 120, some 4, 80, 10⟩, none⟩) none).head?).map (fun c => c.title) =
      some ((⟨⟨"Acme", 120, some 4, 80, 10⟩, none⟩ : SupplierBrandInsight).summary.brand ++
        ": Sentiment pulse") ∧
    (createRecommendationCards "All companies" [] []
          (some ⟨⟨"Acme", 120, some 4, 80, 10⟩, none⟩) none).map (fun c => c.title) =
      [(⟨⟨"Acme", 120, some 4, 80, 10⟩, none⟩ : SupplierBrandInsight).summary.brand ++
          ": Sentiment pulse",
        (⟨⟨"Acme", 120, some 4, 80, 10⟩, none⟩ : SupplierBrandInsight).summary.brand ++
          ": Customer delight initiative",
        (⟨⟨"Acme", 120, some 4, 80, 10⟩, none⟩ : SupplierBrandInsight).summary.brand ++
          ": Customer delight initiative"] := by
  have h := supplier_brand_detail_exactly_three_cards "All companies" [] []
    ⟨⟨"Acme", 120, some 4, 80, 10⟩, none⟩ none
  exact ⟨h.1, h.2.1, h.2.2 rfl rfl rfl⟩


/-- Convenience constructor for concrete advisor models in witnesses and
counterexamples (feature ratings absent). -/
def advModel (brand model : String) (price rating : Option ℚ) : ModelAdvisorModel :=
  { brand := brand, model := model, avg_rating := rating, avg_price_usd := price,
    avg_price_inr := none, avg_battery_rating := none, avg_camera_rating := none,
    avg_display_rating := none, avg_performance_rating := none, review_count := 10 }

/-- A concrete eligible model. -/
def advA : ModelAdvisorModel := advModel "Alpha" "X1" (some 500) (some 4)

/-- C6: for every snapshot, budget and scope, the recommended list is the
3-element prefix of the ranked candidate pool. -/
theorem recommended_is_take3_of_pool :
    ∀ (models : List ModelAdvisorModel) (budgetBrand : String) (budgetValue : Option ℚ),
      (modelAdvisorPools models budgetBrand budgetValue).1 =
        (modelAdvisorPools models budgetBrand budgetValue).2.take 3 ∧
      (modelAdvisorPools models budgetBrand budgetValue).1.length ≤ 3 := by
  intro models bb bv
  simp only [modelAdvisorPools]
  split
  · exact ⟨rfl, by simp⟩
  · split
    · split
      · exact ⟨rfl, by simp⟩
      · refine ⟨rfl, ?_⟩
        simp only [List.length_take]
        omega
    · split
      · exact ⟨rfl, by simp⟩
      · refine ⟨rfl, ?_⟩
        simp only [List.length_take]
        omega

theorem workingSetOf_subset (eligible : List ModelAdvisorModel) (bv : Option ℚ)
    (m : ModelAdvisorModel) (hm : m ∈ workingSetOf eligible bv) : m ∈ eligible := by
  cases bv with
  | none => simpa [workingSetOf] using hm
  | some b =>
      simp only [workingSetOf] at hm
      split at hm
      · exact hm
      · split at hm
        · simp only [withinToleranceOf] at hm
          exact (List.mem_filter.mp hm).1
        · exact hm

/-- C7: no candidate with an absent price or absent rating ever appears in
`candidatePool` (hence never in `recommendedModels`): such candidates are
dropped before ranking. -/
theorem candidatePool_has_price_and_rating :
    ∀ (models : List ModelAdvisorModel) (budgetBrand : String) (budgetValue : Option ℚ)
      (m : ModelAdvisorModel), m ∈ (modelAdvisorPools models budgetBrand budgetValue).2 →
      m.avg_price_usd.isSome = true ∧ m.avg_rating.isSome = true := by
  intro models bb bv m hm
  simp only [modelAdvisorPools] at hm
  split at hm
  · simp at hm
  · split at hm <;>
      (split at hm
       · simp at hm
       · simp only at hm
         rw [mem_jsSort] at hm
         have helig := workingSetOf_subset _ _ _ hm
         simp only [withPriceAndRating] at helig
         have hf := (List.mem_filter.mp helig).2
         simpa [Bool.and_eq_true] using hf)

/-- C7 witness: the concrete eligible model `advA` is in the candidate pool
and has both fields known. -/
theorem candidatePool_has_price_and_rating_witness :
    advA ∈ (modelAdvisorPools [advA] "all" none).2 ∧
      advA.avg_price_usd.isSome = true ∧ advA.avg_rating.isSome = true := by
  have hmem : advA ∈ (modelAdvisorPools [advA] "all" none).2 := by
    simp [modelAdvisorPools, withPriceAndRating, workingSetOf, jsSort, insertBefore, advA,
      advModel]
  exact ⟨hmem, candidatePool_has_price_and_rating [advA] "all" none advA hmem⟩

/-- C2: with a present (positive) budget, the tolerance-filtered subset is
exactly the eligible candidates within `max(0.25 * b, 100)` of the budget; it
becomes the working pool exactly when it has at least 3 members, the full
eligible pool being used otherwise and when no budget is given. -/
theorem working_pool_tolerance_selection :
    ∀ (eligible : List ModelAdvisorModel) (b : ℚ), 0 < b →
      ((∀ m, m ∈ withinToleranceOf eligible b ↔
          m ∈ eligible ∧ |m.avg_price_usd.getD 0 - b| ≤ max (b * (25 / 100)) 100) ∧
        (3 ≤ (withinToleranceOf eligible b).length →
          workingSetOf eligible (some b) = withinToleranceOf eligible b) ∧
        ((withinToleranceOf eligible b).length < 3 →
          workingSetOf eligible (some b) = eligible) ∧
        workingSetOf eligible none = eligible) := by
  intro eligible b hb
  have hb0 : ¬b = 0 := by positivity
  refine ⟨?_, ?_, ?_, rfl⟩
  · intro m
    simp [withinToleranceOf, List.mem_filter]
  · intro h3
    simp only [workingSetOf, if_neg hb0, if_pos h3]
  · intro hlt
    have hn3 : ¬3 ≤ (withinToleranceOf eligible b).length := by omega
    simp only [workingSetOf, if_neg hb0, if_neg hn3]

/-- C2 witness: three eligible models priced 450, 600 and 740 with budget 600
(tolerance 150): the within-tolerance subset has 3 members, so it becomes the
working pool. -/
theorem working_pool_tolerance_selection_witness :
    (0 : ℚ) < 600 ∧
      workingSetOf
          [advModel "A" "p450" (some 450) (some 4), advModel "A" "p600" (some 600) (some 4),
            advModel "A" "p740" (some 740) (some 4)] (some 600) =
        withinToleranceOf
          [advModel "A" "p450" (some 450) (some 4), advModel "A" "p600" (some 600) (some 4),
            advModel "A" "p740" (some 740) (some 4)] 600 :=
  ⟨by norm_num,
    (working_pool_tolerance_selection
        [advModel "A" "p450" (some 450) (some 4), advModel "A" "p600" (some 600) (some 4),
          advModel "A" "p740" (some 740) (some 4)] 600 (by norm_num)).2.1
      (by norm_num [withinToleranceOf, advModel])⟩

/-- C8: the feature aggregator never emits an entry whose (rounded-mean)
rating is 0 — every emitted rating is strictly positive. -/
theorem averageFeatureSeries_no_zero_rating :
    ∀ (pool : List ModelAdvisorModel) (e : String × ℚ), e ∈ averageFeatureSeries pool →
      0 < e.2 ∧ e.2 ≠ 0 := by
  intro pool e he
  simp only [averageFeatureSeries, List.mem_filter] at he
  have hpos : 0 < e.2 := of_decide_eq_true he.2
  exact ⟨hpos, by positivity⟩

/-- C8 witness: a pool with one camera rating yields the Camera entry with a
strictly positive mean. -/
theorem averageFeatureSeries_no_zero_rating_witness :
    ("Camera", (4 : ℚ)) ∈
        averageFeatureSeries
          [{ advModel "Alpha" "X1" (some 500) (some 4) with avg_camera_rating := some 4 }] ∧
      (0 : ℚ) < ("Camera", (4 : ℚ)).2 ∧ ("Camera", (4 : ℚ)).2 ≠ 0 := by
  have hmem : ("Camera", (4 : ℚ)) ∈
      averageFeatureSeries
        [{ advModel "Alpha" "X1" (some 500) (some 4) with avg_camera_rating := some 4 }] := by
    norm_num [averageFeatureSeries, advisorMetrics, advModel, round2, List.filterMap,
      List.filter]
  exact ⟨hmem, averageFeatureSeries_no_zero_rating _ _ hmem⟩


/-- Two concrete candidates with identical ratings whose prices differ by
1e-7, i.e. by less than the 1e-6 tolerance. -/
def ratedLo : ModelAdvisorModel := advModel "Alpha" "Lo" (some 500) (some 4)

/-- See `ratedLo`; priced 1e-7 above it. -/
def ratedHi : ModelAdvisorModel := advModel "Alpha" "Hi" (some (5000000001 / 10000000)) (some 4)

/-- C3 counterexample: two candidates with equal ratings, no budget, and
prices 1e-7 apart are reordered by the price key — the final `avg_price`
comparison is exact, not tolerant, so the pair is not left in stable input
order. -/
theorem ranker_price_key_exact_cex :
    ratedHi.avg_rating = ratedLo.avg_rating ∧
      |ratedHi.avg_price_usd.getD 0 - ratedLo.avg_price_usd.getD 0| < eps ∧
      jsSort (advCmp none) [ratedHi, ratedLo] = [ratedLo, ratedHi] := by
  refine ⟨rfl, ?_, ?_⟩
  · have h : |ratedHi.avg_price_usd.getD 0 - ratedLo.avg_price_usd.getD 0| = 1 / 10000000 := by
      norm_num [ratedHi, ratedLo, advModel, abs_of_pos]
    rw [h]
    norm_num [eps]
  · norm_num [jsSort, insertBefore, advCmp, eps, ratedHi, ratedLo, advModel, MAX_SAFE_INTEGER]

/-- C3 amended: the `avg_rating` and budget-distance keys do use the 1e-6
tolerance, but the final `avg_price` key does not — once the earlier keys are
tied within tolerance the comparator returns `priceA - priceB` itself
(unknown prices replaced by `Number.MAX_SAFE_INTEGER`), so prices differing
by less than 1e-6 still order the pair. -/
theorem ranker_price_key_exact_amended :
    ∀ (a b : ModelAdvisorModel) (bd : ℚ),
      (|b.avg_rating.getD 0 - a.avg_rating.getD 0| ≤ eps →
        advCmp none a b =
          a.avg_price_usd.getD MAX_SAFE_INTEGER - b.avg_price_usd.getD MAX_SAFE_INTEGER) ∧
      (|b.avg_rating.getD 0 - a.avg_rating.getD 0| ≤ eps → bd ≠ 0 →
        abs (|a.avg_price_usd.getD bd - bd| - |b.avg_price_usd.getD bd - bd|) ≤ eps →
        advCmp (some bd) a b =
          a.avg_price_usd.getD MAX_SAFE_INTEGER - b.avg_price_usd.getD MAX_SAFE_INTEGER) := by
  intro a b bd
  constructor
  · intro h
    have h1 : ¬eps < |b.avg_rating.getD 0 - a.avg_rating.getD 0| := not_lt.mpr h
    simp only [advCmp, if_neg h1]
  · intro h hbd hd
    have h1 : ¬eps < |b.avg_rating.getD 0 - a.avg_rating.getD 0| := not_lt.mpr h
    have h2 : ¬eps < abs (|a.avg_price_usd.getD bd - bd| - |b.avg_price_usd.getD bd - bd|) :=
      not_lt.mpr hd
    simp only [advCmp, if_neg h1, if_neg hbd, if_neg h2]

/-- C3 amended witness: the comparator on `ratedLo`, `ratedHi` (ratings tied,
budget distances tied within tolerance at budget 500) reduces to the exact
price difference in both the no-budget and budget cases. -/
theorem ranker_price_key_exact_amended_witness :
    |ratedHi.avg_rating.getD 0 - ratedLo.avg_rating.getD 0| ≤ eps ∧
      (500 : ℚ) ≠ 0 ∧
      abs (|ratedLo.avg_price_usd.getD 500 - 500| - |ratedHi.avg_price_usd.getD 500 - 500|) ≤
        eps ∧
      advCmp none ratedLo ratedHi =
        ratedLo.avg_price_usd.getD MAX_SAFE_INTEGER -
          ratedHi.avg_price_usd.getD MAX_SAFE_INTEGER ∧
      advCmp (some 500) ratedLo ratedHi =
        ratedLo.avg_price_usd.getD MAX_SAFE_INTEGER -
          ratedHi.avg_price_usd.getD MAX_SAFE_INTEGER := by
  have hr : |ratedHi.avg_rating.getD 0 - ratedLo.avg_rating.getD 0| ≤ eps := by
    norm_num [ratedHi, ratedLo, advModel, eps]
  have hbd : (500 : ℚ) ≠ 0 := by norm_num
  have hd : abs (|ratedLo.avg_price_usd.getD 500 - 500| -
      |ratedHi.avg_price_usd.getD 500 - 500|) ≤ eps := by
    have h1 : |ratedLo.avg_price_usd.getD 500 - 500| = 0 := by
      norm_num [ratedLo, advModel]
    have h2 : |ratedHi.avg_price_usd.getD 500 - 500| = 1 / 10000000 := by
      norm_num [ratedHi, advModel, abs_of_pos]
    rw [h1, h2]
    norm_num [eps, abs_of_nonpos]
  exact ⟨hr, hbd, hd, (ranker_price_key_exact_amended ratedLo ratedHi 500).1 hr,
    (ranker_price_key_exact_amended ratedLo ratedHi 500).2 hr hbd hd⟩

/-- A concrete buyer model-analysis entry with an absent average rating. -/
def buyNoRating : ModelAnalysisEntry :=
  { brand := "Acme", model := "NR", total_reviews := 10, sentiments := ⟨6, 2, 2⟩,
    avg_rating := none, positive_pct := 60, negative_pct := 20, overall_score := 0,
    strongest_features := [], weakest_features := [] }

/-- A concrete buyer model-analysis entry with a measured rating of 4. -/
def buyRated : ModelAnalysisEntry :=
  { brand := "Acme", model := "R4", total_reviews := 10, sentiments := ⟨5, 3, 2⟩,
    avg_rating := some 4, positive_pct := 55, negative_pct := 20, overall_score := 0,
    strongest_features := [], weakest_features := [] }

/-- C4 counterexample: the buyer best-model sort scores a model whose
`avg_rating` is absent exactly as if the rating were a measured 0 (via
`?? 0`), and on that basis selects it as best model over a model with a
measured rating — absent ratings are not propagated as unknown in this
ranking comparison. -/
theorem buyer_best_model_zero_coercion_cex :
    buyNoRating.avg_rating = none ∧
      buyerScore buyNoRating = buyerScore { buyNoRating with avg_rating := some 0 } ∧
      buyerBestModel [buyNoRating, buyRated] none = some buyNoRating := by
  refine ⟨rfl, by norm_num [buyerScore, buyNoRating], ?_⟩
  norm_num [buyerBestModel, jsSort, insertBefore, buyerScore, buyNoRating, buyRated]

/-- C4 amended: the Model Advisor does drop candidates with absent fields
before ranking, but the buyer-context best-model sort coerces an absent
`avg_rating` to 0 through `?? 0`: a model with absent rating receives exactly
the score `positive_pct + 0`, i.e. is ranked as though its rating were a
measured 0. -/
theorem buyer_best_model_zero_coercion_amended :
    ∀ (m : ModelAnalysisEntry), m.avg_rating = none →
      buyerScore m = m.positive_pct ∧
        buyerScore m = buyerScore { m with avg_rating := some 0 } := by
  intro m h
  constructor
  · simp [buyerScore, h]
  · simp [buyerScore, h]

/-- C4 amended witness: instantiated at the concrete absent-rating entry. -/
theorem buyer_best_model_zero_coercion_amended_witness :
    buyNoRating.avg_rating = none ∧
      buyerScore buyNoRating = buyNoRating.positive_pct ∧
      buyerScore buyNoRating = buyerScore { buyNoRating with avg_rating := some 0 } := by
  refine ⟨rfl, ?_, ?_⟩
  · exact (buyer_best_model_zero_coercion_amended buyNoRating rfl).1
  · exact (buyer_best_model_zero_coercion_amended buyNoRating rfl).2

/-- C5 counterexample: a scope naming a brand absent from the snapshot does
not reproduce the no-scope output — with one eligible model of brand
"Alpha", scoping to the absent brand "Beta" yields the empty pools while the
aggregate (no-scope) run yields the model. -/
theorem malformed_scope_cex :
    modelAdvisorPools [advA] "Beta" none ≠ modelAdvisorPools [advA] "all" none := by
  have h1 : modelAdvisorPools [advA] "Beta" none = ([], []) := by
    simp [modelAdvisorPools, withPriceAndRating, advA, advModel, List.filter]
  have h2 : modelAdvisorPools [advA] "all" none = ([advA], [advA]) := by
    simp [modelAdvisorPools, withPriceAndRating, workingSetOf, jsSort, insertBefore, advA,
      advModel, List.filter]
  rw [h1, h2]
  simp

/-- C5 amended: a scope naming a brand absent from the snapshot never raises
(the computation is total) and always yields the degenerate empty result
`([], [])` — which coincides with the no-scope output only when the latter is
itself empty.  (The page resets an invalid brand selection to "all" through a
separate React effect; the core computation itself does not fall back.) -/
theorem malformed_scope_amended :
    ∀ (models : List ModelAdvisorModel) (bb : String) (bv : Option ℚ),
      bb ≠ "all" → (∀ m ∈ models, m.brand ≠ bb) →
      modelAdvisorPools models bb bv = ([], []) := by
  intro models bb bv hbb habs
  have hfilter : models.filter (fun m => m.brand == bb) = [] := by
    rw [List.filter_eq_nil_iff]
    intro m hm
    simpa using habs m hm
  by_cases hml : models.length = 0
  · simp [modelAdvisorPools, hml]
  · simp [modelAdvisorPools, hml, hbb, hfilter, withPriceAndRating]

/-- C5 amended witness: instantiated at the one-model snapshot and the absent
brand "Beta". -/
theorem malformed_scope_amended_witness :
    ("Beta" : String) ≠ "all" ∧ (∀ m ∈ [advA], m.brand ≠ "Beta") ∧
      modelAdvisorPools [advA] "Beta" none = ([], []) := by
  refine ⟨by decide, ?_, ?_⟩
  · intro m hm
    simp only [List.mem_singleton] at hm
    subst hm
    decide
  · exact malformed_scope_amended [advA] "Beta" none (by decide)
      (by intro m hm; simp only [List.mem_singleton] at hm; subst hm; decide)

end DesignSense
